import Mathlib

/-!
Verification of the distributed document-lock and job-lifecycle core
(`compdb/contrib/concurrency.py` and `compdb/contrib/job.py`).

The backing store primitive (mongodb `find_and_modify` / `update_one`) is
modelled as an atomic conditional update on a single document value.
Machine-level details (uuid generation, wall-clock time) are abstracted to
opaque tokens (`Nat`) and timestamps (`Nat`); lock owner tokens generated by
`uuid4()` are assumed pairwise distinct, which the model realizes by drawing
them from `Fin n`.
-/

/-- The sole synchronization primitive (spec section 4.1, mongodb
`find_and_modify`): apply `upd` to the document `d` only if `pred d` holds;
the boolean reports whether the predicate matched (i.e. whether the store
returned a document rather than `None`). -/
def conditionalUpdate {D : Type} (pred : D → Prop) [DecidablePred pred]
    (upd : D → D) (d : D) : D × Bool :=
  if pred d then (upd d, true) else (d, false)

/-- `DocumentLock._acquire` (concurrency.py lines 172-183): one conditional
update matching `LOCK_ID_FIELD $exists False` and setting
`LOCK_ID_FIELD = self._lock_id`.  The document is modelled by its lock
field, an `Option` owner token. -/
def documentLock_acquire {T : Type} [DecidableEq T] (self : T)
    (d : Option T) : Option T × Bool :=
  conditionalUpdate (fun x => x = none) (fun _ => some self) d

/-- `DocumentLock._release` (concurrency.py lines 185-197): one conditional
update matching `LOCK_ID_FIELD == self._lock_id` and unsetting the field;
a `false` result means the store returned `None` and a `DocumentLockError`
is raised, with no retry. -/
def documentLock_release {T : Type} [DecidableEq T] (self : T)
    (d : Option T) : Option T × Bool :=
  conditionalUpdate (fun x => x = some self) (fun _ => none) d

/-- The lock-relevant fields of a job document for the reentrant
`DocumentRLock`: `_lock_id` (LOCK_ID_FIELD), `_lock_counter`
(LOCK_COUNTER_FIELD), and the literal field name `lock_level` that appears
in the `$unset` of the full-release update (concurrency.py line 238).
`Option` models presence of the field in the document. -/
structure RLockDoc where
  lockId : Option Nat
  lockCounter : Option Int
  lockLevel : Option Int
deriving DecidableEq, Repr

/-- A job document in which no lock field has ever been written. -/
def pristineDoc : RLockDoc := ⟨none, none, none⟩

/-- `DocumentRLock._acquire` (concurrency.py lines 214-229): conditional
update matching `_lock_id $exists False OR _lock_id == self`, setting
`_lock_id = self` and `$inc`-ing `_lock_counter` by 1 (mongodb `$inc`
creates an absent field with value equal to the increment). -/
def documentRLock_acquire (self : Nat) (d : RLockDoc) : RLockDoc × Bool :=
  conditionalUpdate
    (fun x => x.lockId = none ∨ x.lockId = some self)
    (fun x => { x with lockId := some self,
                       lockCounter := some (x.lockCounter.getD 0 + 1) })
    d

/-- `DocumentRLock._release` (concurrency.py lines 231-251): first a full
release matching `_lock_id == self AND _lock_counter == 1`, whose update
`$unset`s `_lock_id` and the field named `lock_level` (line 238 — note:
not `_lock_counter`); if that does not match, a partial release matching
`_lock_id == self`, `$inc`-ing `_lock_counter` by -1; if neither matches,
`DocumentLockError` is raised (modelled by `none`). -/
def documentRLock_release (self : Nat) (d : RLockDoc) : Option RLockDoc :=
  let fullRel := conditionalUpdate
    (fun x => x.lockId = some self ∧ x.lockCounter = some 1)
    (fun x => { x with lockId := none, lockLevel := none }) d
  if fullRel.2 then some fullRel.1
  else
    let decRel := conditionalUpdate
      (fun x => x.lockId = some self)
      (fun x => { x with lockCounter := some (x.lockCounter.getD 0 - 1) }) d
    if decRel.2 then some decRel.1 else none

/-- `k` successive `DocumentRLock._acquire` steps by owner `self`
(each step keeps the updated document, the success flag of every step from
a compatible state being `true`). -/
def acquireN (self : Nat) : Nat → RLockDoc → RLockDoc
  | 0, d => d
  | k + 1, d => acquireN self k (documentRLock_acquire self d).1

/-- `k` successive `DocumentRLock._release` steps by owner `self`;
`none` as soon as one release raises `DocumentLockError`. -/
def releaseN (self : Nat) : Nat → RLockDoc → Option RLockDoc
  | 0, d => some d
  | k + 1, d => (documentRLock_release self d).bind (releaseN self k)

/-- Global state for the mutual-exclusion argument: one shared job document
(its lock field) plus, for each of `n` lock instances with pairwise
distinct owner tokens, the ghost flag recording whether its last
`_acquire` succeeded without a later release ("is a holder"). -/
structure LockSysState (n : Nat) where
  doc : Option (Fin n)
  held : Fin n → Bool

/-- Initially the document is unlocked and no instance holds the lock. -/
def lockSysInit (n : Nat) : LockSysState n :=
  ⟨none, fun _ => false⟩

/-- Interleaving semantics: at any instant one instance executes one atomic
store operation — an `_acquire` attempt (success recorded in its ghost
flag), a successful `_release`, or a failed `_release`
(`DocumentLockError`, document untouched). -/
inductive LockSysStep (n : Nat) : LockSysState n → LockSysState n → Prop
  | acq (s : LockSysState n) (i : Fin n) :
      LockSysStep n s
        ⟨(documentLock_acquire i s.doc).1,
         fun j => if j = i then s.held i || (documentLock_acquire i s.doc).2
                  else s.held j⟩
  | rel (s : LockSysState n) (i : Fin n)
      (h : (documentLock_release i s.doc).2 = true) :
      LockSysStep n s
        ⟨(documentLock_release i s.doc).1,
         fun j => if j = i then false else s.held j⟩
  | relFail (s : LockSysState n) (i : Fin n)
      (h : (documentLock_release i s.doc).2 = false) :
      LockSysStep n s s

/-- States reachable from the all-unlocked initial state by any
interleaving of acquire/release operations of the `n` instances. -/
inductive LockSysReach (n : Nat) : LockSysState n → Prop
  | init : LockSysReach n (lockSysInit n)
  | step {s t : LockSysState n} :
      LockSysReach n s → LockSysStep n s t → LockSysReach n t

/-- The job-document fields touched by `OnlineJob` teardown
(job.py): `executing` (open-instance ids, duplicates possible), `pulse`
(ids that currently have a heartbeat entry), `error` (JOB_ERROR_KEY,
append-only list of error records). -/
structure JobDoc where
  executing : List String
  pulse : List String
  error : List String
deriving DecidableEq, Repr

/-- `OnlineJob._add_instance` (job.py lines 281-287): `$push` of the
instance id onto `executing`. -/
def addInstanceUpd (uid : String) (d : JobDoc) : JobDoc :=
  { d with executing := d.executing ++ [uid] }

/-- The `$pull` update of `OnlineJob._remove_instance` (job.py lines
289-297): removes every occurrence of the instance id from `executing`. -/
def removeInstanceUpd (uid : String) (d : JobDoc) : JobDoc :=
  { d with executing := d.executing.filter (fun x => x ≠ uid) }

/-- `OnlineJob._remove_instance` returns the length of `executing` in the
document returned with `ReturnDocument.AFTER`, i.e. after the pull. -/
def removeInstanceLen (uid : String) (d : JobDoc) : JobDoc × Nat :=
  let d2 := removeInstanceUpd uid d
  (d2, d2.executing.length)

/-- The store update performed by `OnlineJob._stop_pulse` (job.py lines
324-337) after joining the pulse worker: `$unset` of `pulse.<uid>`. -/
def stopPulseUpd (uid : String) (d : JobDoc) : JobDoc :=
  { d with pulse := d.pulse.filter (fun x => x ≠ uid) }

/-- `'{}:{}'.format(err_type, err_value)` — the record pushed onto
JOB_ERROR_KEY by `OnlineJob.__exit__` (job.py line 381): it carries the
error type and the error message. -/
def errFormat (t v : String) : String := t ++ ":" ++ v

/-- Store-visible events of one `OnlineJob.__exit__` call, in program
order. -/
inductive JobEvent
  | lockAcquire
  | errorPush (s : String)
  | pulseStop
  | instanceRemove
  | stageTwoCleanup
  | lockRelease
deriving DecidableEq, Repr

/-- `OnlineJob.__exit__` (job.py lines 373-389): under the document lock,
if no error was raised run `_close_stage_one` (stop pulse, remove
instance) then `_close_stage_two`; if an error was raised, push the
formatted error record onto JOB_ERROR_KEY, then run `_close_stage_one`
only. The lock is released when the `with` block exits. The second
component lists the store-visible events in order. -/
def onlineJob_exit (uid : String) (err : Option (String × String))
    (d : JobDoc) : JobDoc × List JobEvent :=
  match err with
  | none =>
      let d1 := removeInstanceUpd uid (stopPulseUpd uid d)
      (d1, [JobEvent.lockAcquire, JobEvent.pulseStop, JobEvent.instanceRemove,
            JobEvent.stageTwoCleanup, JobEvent.lockRelease])
  | some (t, v) =>
      let d1 := { d with error := d.error ++ [errFormat t v] }
      let d2 := removeInstanceUpd uid (stopPulseUpd uid d1)
      (d2, [JobEvent.lockAcquire, JobEvent.errorPush (errFormat t v),
            JobEvent.pulseStop, JobEvent.instanceRemove, JobEvent.lockRelease])

/-- Python values as far as the pulse-worker update argument is concerned:
pymongo accepts an update document only if it is a mapping (dict). -/
inductive PyVal
  | pyDict (entries : List (String × PyVal))
  | pyTuple (items : List PyVal)
  | pyStr (s : String)
  | pyTime (t : Nat)

/-- pymongo `update_one` / `update` validation: the update argument must be
a mapping; anything else raises `TypeError`. -/
def pyIsMapping : PyVal → Bool
  | PyVal.pyDict _ => true
  | _ => false

/-- The update argument built by `pulse_worker` (job.py line 32):
`update = {'$set': {'pulse.<uid>': now}},` — the trailing comma wraps the
dict in a 1-tuple. -/
def pulse_worker_update (uid : String) (now : Nat) : PyVal :=
  PyVal.pyTuple
    [PyVal.pyDict [("$set", PyVal.pyDict [("pulse." ++ uid, PyVal.pyTime now)])]]

/-- Worker thread state of a blocking `acquire`
(`try_to_acquire`, concurrency.py lines 107-114): still looping, or
terminated (either because an attempt succeeded or because it observed the
stop event). -/
inductive WorkerState
  | running
  | done
deriving DecidableEq, Repr

/-- Main thread state of a blocking `acquire` (concurrency.py lines
115-124): joining with the caller timeout, cancelling (stop event set,
second unbounded join in progress), or returned. -/
inductive MainState
  | joining
  | cancelling
  | returned
deriving DecidableEq, Repr

/-- Combined state of one blocking `acquire` call: the `stop_event` flag,
the retry-worker thread and the calling thread. -/
structure AcqSys where
  stopEvent : Bool
  worker : WorkerState
  mainSt : MainState
deriving DecidableEq, Repr

/-- Externally visible events of a blocking `acquire`: a conditional-update
attempt against the store by the retry worker, or `acquire` returning with
a boolean. -/
inductive AcqEvent
  | storeCall
  | ret (success : Bool)
deriving DecidableEq, Repr

/-- State at entry of the blocking branch: stop event clear, worker
started, main thread in `t_acq.join(timeout)`. -/
def acqInit : AcqSys := ⟨false, WorkerState.running, MainState.joining⟩

/-- Interleaving small-step semantics of one blocking `acquire` call.
Worker steps: a failed attempt (loop continues), a successful attempt
(thread returns), observing the stop event at the loop head (thread
returns). Main steps: the join timeout elapses while the worker is alive
(set `stop_event`, join again), a join completing with the worker
terminated (return `true` from the first join, `false` after
cancellation). -/
inductive AcqStep : AcqSys → List AcqEvent → AcqSys → Prop
  | attemptFail {s : AcqSys} (h : s.worker = WorkerState.running) :
      AcqStep s [AcqEvent.storeCall] s
  | attemptSucc {s : AcqSys} (h : s.worker = WorkerState.running) :
      AcqStep s [AcqEvent.storeCall] { s with worker := WorkerState.done }
  | workerStop {s : AcqSys} (h : s.worker = WorkerState.running)
      (hs : s.stopEvent = true) :
      AcqStep s [] { s with worker := WorkerState.done }
  | timeoutCancel {s : AcqSys} (h : s.mainSt = MainState.joining)
      (hw : s.worker = WorkerState.running) :
      AcqStep s [] { s with stopEvent := true, mainSt := MainState.cancelling }
  | joinTimely {s : AcqSys} (h : s.mainSt = MainState.joining)
      (hw : s.worker = WorkerState.done) :
      AcqStep s [AcqEvent.ret true] { s with mainSt := MainState.returned }
  | joinAfterCancel {s : AcqSys} (h : s.mainSt = MainState.cancelling)
      (hw : s.worker = WorkerState.done) :
      AcqStep s [AcqEvent.ret false] { s with mainSt := MainState.returned }

/-- Reachability with accumulated event trace. -/
inductive AcqReach : AcqSys → List AcqEvent → AcqSys → Prop
  | refl (s : AcqSys) : AcqReach s [] s
  | step {s t u : AcqSys} {evs evs2 : List AcqEvent} :
      AcqReach s evs t → AcqStep t evs2 u → AcqReach s (evs ++ evs2) u

/-- `threading.TIMEOUT_MAX` fallback value used by concurrency.py
(line 45) when the import fails; the implementation-defined maximum
timeout. -/
def TIMEOUT_MAX : Int := 100000

/-- The error surface of `DocumentBaseLock.acquire` argument validation:
`ValueError` (InvalidArgument) and `OverflowError` (Overflow). -/
inductive AcquireError
  | invalidArgument
  | overflowError
deriving DecidableEq, Repr

/-- `DocumentBaseLock.acquire` (concurrency.py lines 81-126): the two
validations at lines 97-100, performed before the lock body runs.  The
body (single attempt or scheduler loop) is abstracted as its result
together with the store calls it makes; the validations must fire before
any of those calls happen. -/
def documentBaseLock_acquireRun (blocking : Bool) (timeout : Int)
    (body : Bool × List AcqEvent) : Except AcquireError Bool × List AcqEvent :=
  if blocking = false ∧ timeout ≠ -1 then
    (Except.error AcquireError.invalidArgument, [])
  else if timeout > TIMEOUT_MAX then
    (Except.error AcquireError.overflowError, [])
  else (Except.ok body.1, body.2)

/-- The job document as fetched by `OnlineJob._open_instances` (job.py
lines 442-448): the whole document may be absent from the store, and a
present document may lack the `executing` key. -/
structure FetchedJobDoc where
  executing : Option (List String)
deriving DecidableEq, Repr

/-- `OnlineJob._open_instances`: `find_one` then
`job_doc.get('executing', list())`, with `[]` when the document is
absent. -/
def openInstances (jobDoc : Option FetchedJobDoc) : List String :=
  match jobDoc with
  | none => []
  | some jd => jd.executing.getD []

/-- `OnlineJob.num_open_instances` (job.py lines 450-452). -/
def num_open_instances (jobDoc : Option FetchedJobDoc) : Nat :=
  (openInstances jobDoc).length

/-- `OnlineJob.is_exclusive_instance` (job.py lines 454-456). -/
def is_exclusive_instance (jobDoc : Option FetchedJobDoc) : Bool :=
  num_open_instances jobDoc ≤ 1

/-! ## Theorems -/

/-- Claim C7: `DocumentLock._release` is a single conditional update; when
the document does not carry this lock token (externally manipulated or
already released), the update does not match, a `DocumentLockError`
(`StateCorruption`) is raised, and the document is left untouched — no
retry is attempted. -/
theorem exclusive_release_mismatch {T : Type} [DecidableEq T] (self : T)
    (d : Option T) (h : d ≠ some self) :
    documentLock_release self d = (d, false) := by
  simp [documentLock_release, conditionalUpdate, h]

/-- Witness for `exclusive_release_mismatch` at a concrete mismatching
document. -/
theorem exclusive_release_mismatch_witness :
    documentLock_release 0 (some 1) = (some 1, false) :=
  exclusive_release_mismatch 0 (some 1) (by decide)

/-- Claim C8: `acquire` raises `ValueError` (InvalidArgument) when
`blocking=False` is combined with a timeout, and `OverflowError`
(Overflow) when the timeout exceeds `TIMEOUT_MAX`; in both cases the error
fires before any conditional update is attempted against the store (the
emitted store-call list is empty). -/
theorem acquire_validation (blocking : Bool) (timeout : Int)
    (body : Bool × List AcqEvent)
    (h : (blocking = false ∧ timeout ≠ -1) ∨
         (blocking = true ∧ TIMEOUT_MAX < timeout)) :
    documentBaseLock_acquireRun blocking timeout body =
      (Except.error (if blocking = false then AcquireError.invalidArgument
                     else AcquireError.overflowError), []) := by
  rcases h with ⟨hb, ht⟩ | ⟨hb, ht⟩ <;>
    simp [documentBaseLock_acquireRun, hb, ht]

/-- Witness for `acquire_validation`: a non-blocking call with a timeout
errors with InvalidArgument before touching the store. -/
theorem acquire_validation_witness :
    documentBaseLock_acquireRun false 5 (true, [AcqEvent.storeCall]) =
      (Except.error AcquireError.invalidArgument, []) := by
  have := acquire_validation false 5 (true, [AcqEvent.storeCall])
    (Or.inl ⟨rfl, by decide⟩)
  simpa using this

/-- Claim C9: on a document whose `executing` list does not already
contain this instance id (it may contain other, possibly duplicated, ids),
`_add_instance` appends the id and a subsequent `_remove_instance` for the
same id returns a length exactly one less than the length after the
add. -/
theorem registry_add_remove_balance (uid : String) (d : JobDoc)
    (h : uid ∉ d.executing) :
    (addInstanceUpd uid d).executing = d.executing ++ [uid] ∧
    (removeInstanceLen uid (addInstanceUpd uid d)).2 =
      (addInstanceUpd uid d).executing.length - 1 := by
  refine ⟨rfl, ?_⟩
  have hf : d.executing.filter (fun x => decide (x ≠ uid)) = d.executing := by
    refine List.filter_eq_self.mpr ?_
    intro a ha
    simp only [decide_eq_true_eq]
    intro hcontr
    exact h (hcontr ▸ ha)
  simp [removeInstanceLen, removeInstanceUpd, addInstanceUpd,
    List.filter_append, hf]
  exact fun a ha hc => h (hc ▸ ha)

/-- Witness for `registry_add_remove_balance` on a document with
duplicated other ids. -/
theorem registry_add_remove_balance_witness :
    (addInstanceUpd "c" ⟨["a", "b", "b"], [], []⟩).executing =
      ["a", "b", "b"] ++ ["c"] ∧
    (removeInstanceLen "c" (addInstanceUpd "c" ⟨["a", "b", "b"], [], []⟩)).2 =
      (addInstanceUpd "c" ⟨["a", "b", "b"], [], []⟩).executing.length - 1 :=
  registry_add_remove_balance "c" ⟨["a", "b", "b"], [], []⟩ (by decide)

/-- Claim C10: when the job document is absent from the store,
`num_open_instances` returns 0 (the open-instances query yields the empty
list rather than failing) and therefore `is_exclusive_instance` returns
`True`. -/
theorem num_open_instances_missing_doc :
    openInstances none = [] ∧ num_open_instances none = 0 ∧
    is_exclusive_instance none = true := by
  refine ⟨rfl, rfl, rfl⟩

/-- After `k` further acquisitions by the current owner, the counter has
grown by `k` and the owner is unchanged. -/
theorem acquireN_locked (self : Nat) (k : Nat) :
    ∀ (c : Int) (lvl : Option Int),
      acquireN self k ⟨some self, some c, lvl⟩ = ⟨some self, some (c + k), lvl⟩ := by
  induction k with
  | zero => intro c lvl; simp [acquireN]
  | succ k ih =>
      intro c lvl
      have hstep : (documentRLock_acquire self ⟨some self, some c, lvl⟩).1 =
          ⟨some self, some (c + 1), lvl⟩ := by
        simp [documentRLock_acquire, conditionalUpdate]
      rw [acquireN, hstep, ih]
      have hc : c + 1 + (k : Int) = c + ((k + 1 : Nat) : Int) := by
        push_cast
        omega
      rw [hc]

/-- From a pristine document, `k ≥ 1` acquisitions by `self` all match and
leave the document locked by `self` with counter `k`. -/
theorem acquireN_pristine (self : Nat) (k : Nat) (hk : 1 ≤ k) :
    acquireN self k pristineDoc = ⟨some self, some (k : Int), none⟩ := by
  obtain ⟨k, rfl⟩ : ∃ m, k = m + 1 := ⟨k - 1, by omega⟩
  have hstep : (documentRLock_acquire self pristineDoc).1 =
      ⟨some self, some 1, none⟩ := by
    simp [documentRLock_acquire, conditionalUpdate, pristineDoc]
  rw [acquireN, hstep, acquireN_locked]
  have hc : (1 : Int) + (k : Int) = ((k + 1 : Nat) : Int) := by
    push_cast
    omega
  rw [hc]

/-- From a document locked by `self` with counter `k ≥ 1`, `k` releases by
`self` all succeed: `k - 1` partial releases followed by one full release,
ending with the owner token unset (and, because the full release unsets
`lock_level` instead of `_lock_counter`, the counter left at 1). -/
theorem releaseN_locked (self : Nat) (k : Nat) (hk : 1 ≤ k) :
    ∀ lvl : Option Int,
      releaseN self k ⟨some self, some (k : Int), lvl⟩ =
        some ⟨none, some 1, none⟩ := by
  induction k with
  | zero => omega
  | succ k ih =>
      intro lvl
      by_cases hk0 : k = 0
      · subst hk0
        simp [releaseN, documentRLock_release, conditionalUpdate]
      · have hfull : ¬(((k : Int) + 1 = 1)) := by omega
        have hstep : documentRLock_release self ⟨some self, some ((k : Nat) + 1 : Int), lvl⟩ =
            some ⟨some self, some (k : Int), lvl⟩ := by
          simp [documentRLock_release, conditionalUpdate, hfull]
        rw [releaseN]
        push_cast
        rw [hstep]
        simpa using ih (by omega) lvl

/-- `k + 1` monadic releases are `k` releases followed by one more. -/
theorem releaseN_succ_back (self : Nat) (k : Nat) :
    ∀ d : RLockDoc,
      releaseN self (k + 1) d =
        (releaseN self k d).bind (documentRLock_release self) := by
  induction k with
  | zero =>
      intro d
      cases hd : documentRLock_release self d <;> simp [releaseN, hd]
  | succ k ih =>
      intro d
      cases hd : documentRLock_release self d with
      | none => simp [releaseN, hd]
      | some d2 =>
          have hL : releaseN self (k + 1 + 1) d = releaseN self (k + 1) d2 := by
            rw [releaseN, hd]
            simp
          have hR : releaseN self (k + 1) d = releaseN self k d2 := by
            rw [releaseN, hd]
            simp
          rw [hL, hR, ih d2]

/-- A release against a document whose lock field is absent matches
neither the full-release nor the partial-release update and raises
`DocumentLockError`. -/
theorem release_unlocked_fails (self : Nat) (c lvl : Option Int) :
    documentRLock_release self ⟨none, c, lvl⟩ = none := by
  simp [documentRLock_release, conditionalUpdate]

/-- Claim C2: for every `k ≥ 1`, `k` acquisitions of the reentrant
`DocumentRLock` by one owner on a pristine document followed by `k`
releases leave the document unlocked (`_lock_id` absent), and a
`(k+1)`-th release raises `DocumentLockError` (`StateCorruption`). -/
theorem rlock_round_trip (self : Nat) (k : Nat) (hk : 1 ≤ k) :
    (releaseN self k (acquireN self k pristineDoc)).map RLockDoc.lockId =
      some none ∧
    releaseN self (k + 1) (acquireN self k pristineDoc) = none := by
  rw [acquireN_pristine self k hk]
  have h3 := releaseN_locked self k hk none
  constructor
  · rw [h3]; rfl
  · rw [releaseN_succ_back, h3]
    simpa using release_unlocked_fails self (some 1) none

/-- Witness for `rlock_round_trip` at `k = 2`. -/
theorem rlock_round_trip_witness :
    (releaseN 0 2 (acquireN 0 2 pristineDoc)).map RLockDoc.lockId =
      some none ∧
    releaseN 0 3 (acquireN 0 2 pristineDoc) = none :=
  rlock_round_trip 0 2 (by decide)

/-- Claim C3 (code bug): the full-release update of
`DocumentRLock._release` unsets `_lock_id` and the stale field name
`lock_level` instead of `_lock_counter` (concurrency.py line 238), so
after a full release the counter field is still present with value 1, and
the first acquisition of the next cycle leaves the counter at 2, not 1. -/
theorem rlock_full_release_keeps_counter :
    documentRLock_release 7 ⟨some 7, some 1, none⟩ =
      some ⟨none, some 1, none⟩ ∧
    (documentRLock_acquire 7 ⟨none, some 1, none⟩).2 = true ∧
    ((documentRLock_acquire 7 ⟨none, some 1, none⟩).1).lockCounter = some 2 := by
  refine ⟨?_, ?_, ?_⟩ <;> decide

/-- Claim C4: when an error was raised inside the open job scope,
`OnlineJob.__exit__` still stops the heartbeat pulse (the `pulse.<uid>`
entry is unset) and removes the instance id from `executing`, skips the
secondary cleanup step (`_close_stage_two` never runs), and appends one
record carrying the error type and message to the `error` field — all of
it, per the emitted event order, before the document lock is released. -/
theorem job_exit_error_path (uid t v : String) (d : JobDoc) :
    uid ∉ (onlineJob_exit uid (some (t, v)) d).1.pulse ∧
    uid ∉ (onlineJob_exit uid (some (t, v)) d).1.executing ∧
    (onlineJob_exit uid (some (t, v)) d).1.error =
      d.error ++ [errFormat t v] ∧
    (onlineJob_exit uid (some (t, v)) d).2 =
      [JobEvent.lockAcquire, JobEvent.errorPush (errFormat t v),
       JobEvent.pulseStop, JobEvent.instanceRemove, JobEvent.lockRelease] := by
  refine ⟨?_, ?_, rfl, rfl⟩
  · simp [onlineJob_exit, stopPulseUpd, removeInstanceUpd, List.mem_filter]
  · simp [onlineJob_exit, stopPulseUpd, removeInstanceUpd, List.mem_filter]

/-- Claim C6 (code bug): the update argument built by each periodic
iteration of `pulse_worker` is a 1-tuple containing the intended
`$set pulse.<uid> = now` mapping (trailing comma, job.py line 32); the
store client only accepts a mapping, so the heartbeat upsert is rejected
with `TypeError` on every period and `pulse[instance_id]` is never
written. -/
theorem pulse_periodic_update_rejected (uid : String) (now : Nat) :
    pyIsMapping (pulse_worker_update uid now) = false ∧
    pulse_worker_update uid now =
      PyVal.pyTuple
        [PyVal.pyDict
          [("$set", PyVal.pyDict [("pulse." ++ uid, PyVal.pyTime now)])]] ∧
    pyIsMapping
      (PyVal.pyDict
        [("$set", PyVal.pyDict [("pulse." ++ uid, PyVal.pyTime now)])]) = true := by
  exact ⟨rfl, rfl, rfl⟩

/-- Invariant of the lock system: an instance believes it holds the lock
only if the shared document carries exactly its token. -/
theorem lockSys_inv {n : Nat} {s : LockSysState n} (h : LockSysReach n s) :
    ∀ i : Fin n, s.held i = true → s.doc = some i := by
  induction h with
  | init =>
      intro i hi
      simp [lockSysInit] at hi
  | step hr hs ih =>
      rename_i s t
      cases hs with
      | acq i =>
          intro j hj
          by_cases hd : s.doc = none
          · simp only [documentLock_acquire, conditionalUpdate, hd,
              if_pos rfl] at hj ⊢
            by_cases hji : j = i
            · simp [hji]
            · simp only [if_neg hji] at hj
              have := ih j hj
              rw [hd] at this
              exact absurd this (by simp)
          · simp only [documentLock_acquire, conditionalUpdate,
              if_neg hd] at hj ⊢
            by_cases hji : j = i
            · subst hji
              simp only [if_pos rfl, Bool.or_false] at hj
              exact ih j hj
            · simp only [if_neg hji] at hj
              exact ih j hj
      | rel i hrel =>
          intro j hj
          have hdoc : s.doc = some i := by
            by_contra hne
            simp [documentLock_release, conditionalUpdate, hne] at hrel
          by_cases hji : j = i
          · subst hji
            simp only [if_pos rfl] at hj
            exact absurd hj (by simp)
          · simp only [if_neg hji] at hj
            have := ih j hj
            rw [hdoc] at this
            exact absurd (Option.some_injective _ this) (fun hij => hji hij.symm)
      | relFail i hrel =>
          exact ih

/-- Claim C1: in every state reachable by any interleaving of atomic
acquire/release operations of `n` `DocumentLock` instances with distinct
owner tokens over one shared document, at most one instance is a holder;
moreover an `_acquire` conditional update matches exactly when the
document's lock field is absent, so no two instances can observe a
successful acquisition simultaneously. -/
theorem exclusive_lock_mutex (n : Nat) (s : LockSysState n)
    (h : LockSysReach n s) (i j : Fin n)
    (hi : s.held i = true) (hj : s.held j = true) :
    i = j ∧
    (∀ (tok : Fin n) (d : Option (Fin n)),
      (documentLock_acquire tok d).2 = true ↔ d = none) := by
  constructor
  · have h1 := lockSys_inv h i hi
    have h2 := lockSys_inv h j hj
    exact Option.some_injective _ (h1.symm.trans h2)
  · intro tok d
    by_cases hd : d = none <;>
      simp [documentLock_acquire, conditionalUpdate, hd]

/-- Witness for `exclusive_lock_mutex`: after instance 0 of two instances
acquires the free lock, it is the unique holder. -/
theorem exclusive_lock_mutex_witness :
    (0 : Fin 2) = 0 :=
  (exclusive_lock_mutex 2 _
    (LockSysReach.step LockSysReach.init (LockSysStep.acq (lockSysInit 2) 0))
    0 0 (by decide) (by decide)).1


/-- Invariant of a blocking `acquire`: the call has returned only if the
retry worker has terminated (the second `join` is unbounded), and a return
event is in the trace exactly when the call has returned. -/
theorem acqReach_inv {evs : List AcqEvent} {s : AcqSys}
    (h : AcqReach acqInit evs s) :
    (s.mainSt = MainState.returned → s.worker = WorkerState.done) ∧
    (s.mainSt = MainState.returned ↔ ∃ b, AcqEvent.ret b ∈ evs) := by
  induction h with
  | refl =>
      refine ⟨fun hc => MainState.noConfusion hc, ?_⟩
      constructor
      · intro hc
        exact MainState.noConfusion hc
      · rintro ⟨b, hb⟩
        exact absurd hb (by simp)
  | step hr hstep ih =>
      rename_i t u evs0 evs2
      cases hstep with
      | attemptFail h1 =>
          refine ⟨ih.1, ?_⟩
          rw [ih.2]
          constructor
          · rintro ⟨b, hb⟩
            exact ⟨b, by simp [hb]⟩
          · rintro ⟨b, hb⟩
            simp only [List.mem_append, List.mem_singleton] at hb
            rcases hb with hb | hb
            · exact ⟨b, hb⟩
            · exact AcqEvent.noConfusion hb
      | attemptSucc h1 =>
          refine ⟨fun _ => rfl, ?_⟩
          show t.mainSt = MainState.returned ↔ _
          rw [ih.2]
          constructor
          · rintro ⟨b, hb⟩
            exact ⟨b, by simp [hb]⟩
          · rintro ⟨b, hb⟩
            simp only [List.mem_append, List.mem_singleton] at hb
            rcases hb with hb | hb
            · exact ⟨b, hb⟩
            · exact AcqEvent.noConfusion hb
      | workerStop h1 h2 =>
          refine ⟨fun _ => rfl, ?_⟩
          rw [List.append_nil]
          exact ih.2
      | timeoutCancel h1 h2 =>
          constructor
          · intro hc
            exact MainState.noConfusion hc
          · constructor
            · intro hc
              exact MainState.noConfusion hc
            · rintro ⟨b, hb⟩
              rw [List.append_nil] at hb
              have hret := ih.2.mpr ⟨b, hb⟩
              rw [h1] at hret
              exact MainState.noConfusion hret
      | joinTimely h1 h2 =>
          refine ⟨fun _ => h2, ?_⟩
          constructor
          · intro _
            exact ⟨true, by simp⟩
          · intro _
            rfl
      | joinAfterCancel h1 h2 =>
          refine ⟨fun _ => h2, ?_⟩
          constructor
          · intro _
            exact ⟨false, by simp⟩
          · intro _
            rfl

/-- In a blocking `acquire`, once the call returns the joined system is
halted: a return event can only be the last event of the trace. -/
theorem acqReach_ret_last {evs : List AcqEvent} {s : AcqSys}
    (h : AcqReach acqInit evs s) :
    ∀ (l1 l2 : List AcqEvent) (b : Bool),
      evs = l1 ++ AcqEvent.ret b :: l2 → l2 = [] := by
  induction h with
  | refl =>
      intro l1 l2 b hsplit
      exact absurd hsplit.symm (by simp)
  | step hr hstep ih =>
      rename_i t u evs0 evs2
      intro l1 l2 b hsplit
      have hinv := acqReach_inv hr
      by_cases hret : t.mainSt = MainState.returned
      · have hw := hinv.1 hret
        cases hstep with
        | attemptFail h1 =>
            rw [hw] at h1
            exact WorkerState.noConfusion h1
        | attemptSucc h1 =>
            rw [hw] at h1
            exact WorkerState.noConfusion h1
        | workerStop h1 h2 =>
            rw [hw] at h1
            exact WorkerState.noConfusion h1
        | timeoutCancel h1 h2 =>
            rw [hret] at h1
            exact MainState.noConfusion h1
        | joinTimely h1 h2 =>
            rw [hret] at h1
            exact MainState.noConfusion h1
        | joinAfterCancel h1 h2 =>
            rw [hret] at h1
            exact MainState.noConfusion h1
      · have hnr : ∀ b0 : Bool, AcqEvent.ret b0 ∉ evs0 := by
          intro b0 hb0
          exact hret (hinv.2.mpr ⟨b0, hb0⟩)
        cases hstep with
        | attemptFail h1 =>
            exfalso
            have hmem : AcqEvent.ret b ∈ evs0 ++ [AcqEvent.storeCall] := by
              rw [hsplit]
              simp
            simp only [List.mem_append, List.mem_singleton] at hmem
            rcases hmem with hm | hm
            · exact hnr b hm
            · exact AcqEvent.noConfusion hm
        | attemptSucc h1 =>
            exfalso
            have hmem : AcqEvent.ret b ∈ evs0 ++ [AcqEvent.storeCall] := by
              rw [hsplit]
              simp
            simp only [List.mem_append, List.mem_singleton] at hmem
            rcases hmem with hm | hm
            · exact hnr b hm
            · exact AcqEvent.noConfusion hm
        | workerStop h1 h2 =>
            exfalso
            have hmem : AcqEvent.ret b ∈ evs0 ++ ([] : List AcqEvent) := by
              rw [hsplit]
              simp
            rw [List.append_nil] at hmem
            exact hnr b hmem
        | timeoutCancel h1 h2 =>
            exfalso
            have hmem : AcqEvent.ret b ∈ evs0 ++ ([] : List AcqEvent) := by
              rw [hsplit]
              simp
            rw [List.append_nil] at hmem
            exact hnr b hmem
        | joinTimely h1 h2 =>
            rcases List.eq_nil_or_concat l2 with rfl | ⟨l2f, x, rfl⟩
            · rfl
            · exfalso
              have hconcat : evs0 ++ [AcqEvent.ret true] =
                  (l1 ++ AcqEvent.ret b :: l2f) ++ [x] := by
                rw [hsplit]
                simp
              have hinj := List.append_inj' hconcat (by simp)
              have hm : AcqEvent.ret b ∈ evs0 := by
                rw [hinj.1]
                simp
              exact hnr b hm
        | joinAfterCancel h1 h2 =>
            rcases List.eq_nil_or_concat l2 with rfl | ⟨l2f, x, rfl⟩
            · rfl
            · exfalso
              have hconcat : evs0 ++ [AcqEvent.ret false] =
                  (l1 ++ AcqEvent.ret b :: l2f) ++ [x] := by
                rw [hsplit]
                simp
              have hinj := List.append_inj' hconcat (by simp)
              have hm : AcqEvent.ret b ∈ evs0 := by
                rw [hinj.1]
                simp
              exact hnr b hm

/-- Claim C5: in any interleaved execution of a blocking `acquire` with
timeout, if the call returns `false` (timeout path: `stop_event.set()`
followed by an unbounded `t_acq.join()` before `return False`), then no
store call from its retry task occurs after the return — the trailing
trace after the return event contains no conditional-update attempt. -/
theorem acquire_timeout_no_orphan (evs : List AcqEvent) (s : AcqSys)
    (h : AcqReach acqInit evs s) (l1 l2 : List AcqEvent)
    (hsplit : evs = l1 ++ AcqEvent.ret false :: l2) :
    AcqEvent.storeCall ∉ l2 := by
  have h2 := acqReach_ret_last h l1 l2 false hsplit
  subst h2
  simp

/-- Witness for `acquire_timeout_no_orphan`: the concrete execution
timeout-cancel, worker-stop, join-return-false has an empty trailing trace
after the `false` return. -/
theorem acquire_timeout_no_orphan_witness :
    AcqEvent.storeCall ∉ ([] : List AcqEvent) :=
  acquire_timeout_no_orphan _ _
    (AcqReach.step
      (AcqReach.step
        (AcqReach.step (AcqReach.refl acqInit)
          (@AcqStep.timeoutCancel acqInit rfl rfl))
        (AcqStep.workerStop rfl rfl))
      (AcqStep.joinAfterCancel rfl rfl))
    [] [] rfl
